import Mathlib

/-!
Verification development for the CRD schema documentation generator
(`scripts/generate-schema-docs.ts`).

The TypeScript source is shallowly embedded: each source function becomes a
Lean definition over explicit data types.  JavaScript objects parsed from
YAML are modelled by the `Json` type (numbers as integers), JS `Map` and
plain-object lookups by association lists that preserve insertion order, and
`undefined`/absent fields by `Option`.  JS truthiness tests on strings,
arrays and optional fields are modelled exactly where the source relies on
them (empty string / empty array / absent value are falsy).
-/

set_option maxHeartbeats 1000000
set_option maxRecDepth 8192

/-- JSON values as produced when parsing the YAML inputs; numbers are
modelled as integers (no claim depends on floating-point rendering). -/
inductive Json where
  | null
  | bool (b : Bool)
  | num (n : Int)
  | str (s : String)
  | arr (elems : List Json)
  | obj (fields : List (String × Json))

/-- Model of JS `Array.prototype.join(sep)`. -/
def joinSep (sep : String) : List String → String
  | [] => ""
  | [x] => x
  | x :: y :: xs => x ++ sep ++ joinSep sep (y :: xs)

/-- Hexadecimal digit, used for JSON control-character escapes. -/
def hexDigit (n : Nat) : Char :=
  if n < 10 then Char.ofNat (48 + n) else Char.ofNat (87 + n)

/-- Four-digit hexadecimal rendering, as in a JSON `\uXXXX` escape. -/
def hex4 (n : Nat) : String :=
  String.mk [hexDigit (n / 4096 % 16), hexDigit (n / 256 % 16), hexDigit (n / 16 % 16), hexDigit (n % 16)]

/-- Escaping of one character inside a JSON string literal, as performed by
`JSON.stringify`. -/
def escapeJsonChar (c : Char) : String :=
  if c = '"' then "\\\""
  else if c = '\\' then "\\\\"
  else if c = '\n' then "\\n"
  else if c = '\r' then "\\r"
  else if c = '\t' then "\\t"
  else if c = '\x08' then "\\b"
  else if c = '\x0c' then "\\f"
  else if c.toNat < 32 then "\\u" ++ hex4 c.toNat
  else String.singleton c

mutual

/-- Model of `JSON.stringify` on parsed YAML values (used for enum members
and default values).  On the `Json` type serialization always succeeds; the
`try`/`catch` in `formatDefault` only guards values (cycles, BigInt) that
have no counterpart in this model. -/
def jsonStringify : Json → String
  | .null => "null"
  | .bool b => if b then "true" else "false"
  | .num n => toString n
  | .str s => "\"" ++ joinSep "" (s.data.map escapeJsonChar) ++ "\""
  | .arr xs => "[" ++ joinSep "," (jsonStringifyList xs) ++ "]"
  | .obj fs => "\x7b" ++ joinSep "," (jsonStringifyFields fs) ++ "\x7d"

/-- Elementwise serialization of a JSON array's members. -/
def jsonStringifyList : List Json → List String
  | [] => []
  | x :: xs => jsonStringify x :: jsonStringifyList xs

/-- Serialization of a JSON object's key/value pairs. -/
def jsonStringifyFields : List (String × Json) → List String
  | [] => []
  | (k, v) :: fs =>
    ("\"" ++ joinSep "" (k.data.map escapeJsonChar) ++ "\":" ++ jsonStringify v) :: jsonStringifyFields fs

end

/-- One node of the JSON-Schema-like tree (`SchemaNode` in the source).
Fields that the source only ever tests for truthiness via `?.length`
(`enum`, `required`, `oneOf`, `anyOf`, `allOf`) are plain lists, absence
coinciding with emptiness; fields whose presence is distinguishable from
emptiness (`type`, `description`, `properties`, `items`,
`additionalProperties`, `format`, `default`) are `Option`s. -/
inductive SchemaNode where
  | mk
    (type : Option String)
    (description : Option String)
    (enum : List Json)
    (required : List String)
    (properties : Option (List (String × SchemaNode)))
    (items : Option SchemaNode)
    (additionalProperties : Option (Bool ⊕ SchemaNode))
    (oneOf : List SchemaNode)
    (anyOf : List SchemaNode)
    (allOf : List SchemaNode)
    (format : Option String)
    (default : Option Json)

def SchemaNode.type : SchemaNode → Option String
  | .mk t _ _ _ _ _ _ _ _ _ _ _ => t

def SchemaNode.description : SchemaNode → Option String
  | .mk _ d _ _ _ _ _ _ _ _ _ _ => d

def SchemaNode.enum : SchemaNode → List Json
  | .mk _ _ e _ _ _ _ _ _ _ _ _ => e

def SchemaNode.required : SchemaNode → List String
  | .mk _ _ _ r _ _ _ _ _ _ _ _ => r

def SchemaNode.properties : SchemaNode → Option (List (String × SchemaNode))
  | .mk _ _ _ _ p _ _ _ _ _ _ _ => p

def SchemaNode.items : SchemaNode → Option SchemaNode
  | .mk _ _ _ _ _ i _ _ _ _ _ _ => i

def SchemaNode.additionalProperties : SchemaNode → Option (Bool ⊕ SchemaNode)
  | .mk _ _ _ _ _ _ ap _ _ _ _ _ => ap

def SchemaNode.oneOf : SchemaNode → List SchemaNode
  | .mk _ _ _ _ _ _ _ o _ _ _ _ => o

def SchemaNode.anyOf : SchemaNode → List SchemaNode
  | .mk _ _ _ _ _ _ _ _ a _ _ _ => a

def SchemaNode.allOf : SchemaNode → List SchemaNode
  | .mk _ _ _ _ _ _ _ _ _ al _ _ => al

def SchemaNode.format : SchemaNode → Option String
  | .mk _ _ _ _ _ _ _ _ _ _ f _ => f

def SchemaNode.defaultVal : SchemaNode → Option Json
  | .mk _ _ _ _ _ _ _ _ _ _ _ df => df

/-- Model of `ensureString(value, fallback = '')` specialised to the typed
fields it is applied to: a present string passes through, anything else
yields the fallback. -/
def ensureString (value : Option String) (fallback : String := "") : String :=
  value.getD fallback

/-- Characters matched by the JS `\s` class and trimmed by `String.trim`
(restricted to the ASCII range used by the inputs). -/
def jsWs (c : Char) : Bool :=
  c = ' ' || c = '\t' || c = '\n' || c = '\r' || c = '\x0b' || c = '\x0c'

/-- Model of `text.replace(/\s+/g, ' ')`: every maximal whitespace run is
collapsed to a single space (`prevWs` records whether the previous
character belonged to a run already replaced). -/
def squeezeWsAux (prevWs : Bool) : List Char → List Char
  | [] => []
  | c :: cs =>
    if jsWs c then (if prevWs then [] else [' ']) ++ squeezeWsAux true cs
    else c :: squeezeWsAux false cs

/-- Whitespace-run collapsing over a whole character list. -/
def squeezeWs (l : List Char) : List Char :=
  squeezeWsAux false l

/-- Model of JS `String.prototype.trim`. -/
def jsTrim (s : String) : String :=
  String.mk (((s.data.dropWhile jsWs).reverse.dropWhile jsWs).reverse)

/-- ASCII lowercasing of one character (the inputs are ASCII kind names,
on which JS `toLowerCase` acts exactly like this). -/
def charToLower (c : Char) : Char :=
  if 'A' ≤ c ∧ c ≤ 'Z' then Char.ofNat (c.toNat + 32) else c

/-- Model of JS `String.prototype.toLowerCase`. -/
def jsToLower (s : String) : String :=
  String.mk (s.data.map charToLower)

/-- Source `normalizeDescription`: collapse whitespace runs to single
spaces, then trim. -/
def normalizeDescription (text : String) : String :=
  jsTrim (String.mk (squeezeWs text.data))

/-- Replacement of every occurrence of the single character `pat` by the
string `rep`; this is exactly what each `.replace(/c/g, rep)` call in
`escapeCell` performs, since every pattern there is a single character. -/
def replaceChar (pat : Char) (rep : List Char) : List Char → List Char
  | [] => []
  | c :: cs => (if c = pat then rep else [c]) ++ replaceChar pat rep cs

/-- Source `escapeCell`: escape pipes, then braces, then newlines, in the
order the source chains its `.replace` calls. -/
def escapeCell (text : String) : String :=
  String.mk
    (replaceChar '\n' "<br />".data
      (replaceChar '\x7d' "&#125;".data
        (replaceChar '\x7b' "&#123;".data
          (replaceChar '|' "\\|".data text.data))))

mutual

/-- Source `formatType`: human-readable type label for a schema node.
Branch guards follow the source's truthiness tests (`?.length` on the
combinator lists, strict string comparison on `type`, `&& typeof ===
'object'` on `additionalProperties`, truthiness on `format` and
`enum?.length`). -/
def formatType : SchemaNode → String
  | .mk t _d e _r _p i ap o a al f _df =>
    if o.isEmpty = false then joinSep " | " (formatTypeList o)
    else if a.isEmpty = false then joinSep " | " (formatTypeList a)
    else if al.isEmpty = false then joinSep " & " (formatTypeList al)
    else if t = some "array" then
      match i with
      | none => "array"
      | some it => "array<" ++ formatType it ++ ">"
    else if t = some "object" then
      match ap with
      | some (.inr m) => "map<string, " ++ formatType m ++ ">"
      | _ => "object"
    else
      let baseType := t.getD "unknown"
      let enumSuffix := if e.isEmpty = false then " (" ++ joinSep ", " (e.map jsonStringify) ++ ")" else ""
      let formatSuffix := match f with
        | some s => if s = "" then "" else " [" ++ s ++ "]"
        | none => ""
      baseType ++ formatSuffix ++ enumSuffix

/-- Formatting of each member of a combinator list (`node.oneOf.map(formatType)`
and friends in the source). -/
def formatTypeList : List SchemaNode → List String
  | [] => []
  | x :: xs => formatType x :: formatTypeList xs

end

/-- Source `formatDefault`: empty string for an absent value, otherwise the
JSON serialization.  The source's `catch` branch (plain `String(value)`)
is unreachable in this model because `jsonStringify` is total on `Json`. -/
def formatDefault : Option Json → String
  | none => ""
  | some v => jsonStringify v

/-- Source `headingForPath`: `"Root"` at the root, otherwise the path with
its leading `"#."` (or bare `"#"`) stripped. -/
def headingForPath (nodePath : String) : String :=
  if nodePath = "#" then "Root"
  else if nodePath.data.take 2 = "#.".data then String.mk (nodePath.data.drop 2)
  else if nodePath.data.take 1 = "#".data then String.mk (nodePath.data.drop 1)
  else nodePath

/-- Source `toObjectEntries`: `Object.entries(node.properties ?? {})`. -/
def toObjectEntries (node : SchemaNode) : List (String × SchemaNode) :=
  (node.properties).getD []

/-- Model of JS `string || fallback` for the two `|| '—'` uses. -/
def jsOrElse (s fallback : String) : String :=
  if s = "" then fallback else s

/-- One table row of `buildSection` (the `rows.push` template string). -/
def rowFor (required : List String) (name : String) (child : SchemaNode) : String :=
  let description := normalizeDescription (ensureString child.description "")
  "| `" ++ name ++ "` | `" ++ escapeCell (formatType child) ++ "` | " ++
    (if required.contains name then "Yes" else "No") ++ " | " ++
    escapeCell (jsOrElse description "—") ++ " | " ++
    escapeCell (jsOrElse (formatDefault child.defaultVal) "—") ++ " |"

/-- Description paragraph blocks pushed by `buildSection` when
`node.description` is truthy. -/
def descBlocks : Option String → List String
  | some desc => if desc = "" then [] else ["", normalizeDescription desc]
  | none => []

/-- Table blocks of `buildSection`: header plus rows when there is at least
one row, the placeholder sentence otherwise. -/
def tableBlocks (rows : List String) : List String :=
  if rows.isEmpty then ["", "_No direct properties at this level._"]
  else
    ["", "| Field | Type | Required | Description | Default |",
     "| --- | --- | --- | --- | --- |"] ++ rows

/-- Child path derivation in `buildSection`'s second loop. -/
def childPathFor (nodePath name : String) : String :=
  if nodePath = "#" then "#." ++ name else nodePath ++ "." ++ name

mutual

/-- Source `buildSection` (with the node argument first so that the mutual
recursion is structural): heading, optional description paragraph, field
table (or placeholder), then recursively expanded child subsections,
joined with newlines. -/
def buildSectionF : SchemaNode → String → String
  | .mk _t d _e r p _i _ap _o _a _al _f _df => fun nodePath =>
    let rows := (p.getD []).map fun nc => rowFor r nc.1 nc.2
    joinSep "\n"
      (["## " ++ headingForPath nodePath]
        ++ descBlocks d
        ++ tableBlocks rows
        ++ (match p with
            | some props => childSectionsF props nodePath
            | none => []))

/-- The `for (const [name, child] of toObjectEntries(node))` loop at the end
of `buildSection`: each entry contributes the blocks of `childBlockF`, in
property order. -/
def childSectionsF : List (String × SchemaNode) → String → List String
  | [] => fun _ => []
  | nc :: rest => fun nodePath =>
    childBlockF nc nodePath ++ childSectionsF rest nodePath

/-- One iteration of the child loop: an object child with a present,
non-empty `properties` map is expanded at `path.name`; otherwise the array
case is delegated to `arrayChildBlocksF`. -/
def childBlockF : String × SchemaNode → String → List String
  | (name, child) => fun nodePath =>
    if child.type = some "object" ∧ child.properties.isSome ∧
        ((child.properties).getD []).length > 0 then
      ["", buildSectionF child (childPathFor nodePath name)]
    else arrayChildBlocksF child (childPathFor nodePath name)

/-- The array arm of the child loop: a child of type `"array"` whose
`items` is an object schema with a present (possibly empty) `properties`
map is expanded at `path.name[]` from the items node. -/
def arrayChildBlocksF : SchemaNode → String → List String
  | .mk ct _cd _ce _cr _cp ci _cap _co _ca _cal _cf _cdf => fun childPath =>
    match ci with
    | some it =>
      if ct = some "array" ∧ it.type = some "object" ∧ it.properties.isSome then
        ["", buildSectionF it (childPath ++ "[]")]
      else []
    | none => []

end

/-- Source `buildSection` with its original argument order. -/
def buildSection (nodePath : String) (node : SchemaNode) : String :=
  buildSectionF node nodePath

/-- One parsed YAML document of the examples file: `parsed` models the
result of `doc.toJSON()` (`none` when that call throws), `text` models the
serialization `doc.toString()`. -/
structure ExampleDoc where
  parsed : Option Json
  text : String

/-- Field lookup on a parsed JSON object. -/
def jsonField (fs : List (String × Json)) (k : String) : Option Json :=
  (fs.find? (fun kv => kv.1 == k)).map (fun kv => kv.2)

/-- Model of `ensureString` applied to an arbitrary JSON field: only a
string value passes through. -/
def jsonEnsureString : Option Json → String
  | some (.str s) => s
  | _ => ""

/-- The kind tag extracted from one example document:
`ensureString(parsed.kind)` after the `!parsed || typeof parsed !==
'object'` guard.  Every rejected shape (parse failure, `null`, scalar,
array) yields `""` and is subsequently skipped, exactly as in the source. -/
def docKind (d : ExampleDoc) : String :=
  match d.parsed with
  | some (.obj fs) => jsonEnsureString (jsonField fs "kind")
  | _ => ""

/-- Insertion-ordered association-list model of the JS `Map`:
`mapGet` is `Map.get` (first, hence only, binding of a key). -/
def mapGet (k : String) (m : List (String × String)) : Option String :=
  (m.find? (fun kv => kv.1 == k)).map (fun kv => kv.2)

/-- Body of the loop in `loadExamplesByKind` for one document: skip when
there is no kind, skip when the lowercased kind is already present,
otherwise store the trimmed serialization under the lowercased kind. -/
def addExample (m : List (String × String)) (d : ExampleDoc) : List (String × String) :=
  let kind := docKind d
  if kind = "" then m
  else if (mapGet (jsToLower kind) m).isSome then m
  else m ++ [(jsToLower kind, jsTrim d.text)]

/-- Source `loadExamplesByKind` over the parsed documents of the examples
file (the missing-file case is the empty document list). -/
def loadExamplesByKind (docs : List ExampleDoc) : List (String × String) :=
  docs.foldl addExample []

/-- The lookup `examplesByKind.get(kind.toLowerCase())` performed in
`main` when assembling one document. -/
def exampleForKind (examples : List (String × String)) (kind : String) : Option String :=
  mapGet (jsToLower kind) examples

/-- Static appendix for the MCPServer page (`CONDITION_DOCS.MCPServer`). -/
def mcpServerConditionDoc : String :=
  "\n# Condition reference\n\n" ++
  "The operator sets three conditions on every MCPServer during reconciliation.\n\n" ++
  "| Condition | Reason (True) | Reason (False) | Description |\n" ++
  "| --- | --- | --- | --- |\n" ++
  "| `ToolsDiscovered` | `ResourcesFound` | `NoResourcesFound` | At least one MCPTool, MCPPrompt, or MCPResource matched `spec.toolSelector` |\n" ++
  "| `ConfigReady` | `ConfigMapCreated` | — | The generated ConfigMap containing tool/prompt/resource config was written successfully |\n" ++
  "| `Ready` | `DeploymentReady` | `DeploymentNotReady` | The MCPServer Deployment has at least one ready replica |\n\n" ++
  "See the [Observability guide](/guides/observability/) for diagnostic patterns using these conditions.\n\n" ++
  "# Generated resources\n\n" ++
  "For each MCPServer the operator creates the following resources (all named `mcp-server-\x7bname\x7d-*` and owned by the MCPServer for automatic cleanup):\n\n" ++
  "| Resource | Name | Notes |\n" ++
  "| --- | --- | --- |\n" ++
  "| Deployment | `mcp-server-\x7bname\x7d` | Runs `spec.image` on port 8080 |\n" ++
  "| Service | `mcp-server-\x7bname\x7d` | ClusterIP on port 8080, named `http` |\n" ++
  "| ConfigMap | `mcp-server-\x7bname\x7d-config` | Mounted read-only at `/etc/mcp/config` with `tools.json`, `prompts.json`, `resources.json` |\n" ++
  "| NetworkPolicy | `mcp-server-\x7bname\x7d-egress` | Auto-generated egress to Redis, DNS, and discovered tool/resource services |\n" ++
  "| Ingress | `mcp-server-\x7bname\x7d` | Only when `spec.ingress` is configured |\n\n" ++
  "The operator always injects two environment variables into the container before any user-provided `spec.env` entries:\n\n" ++
  "| Variable | Value |\n" ++
  "| --- | --- |\n" ++
  "| `REDIS_HOST` | `spec.redis.serviceName` |\n" ++
  "| `MCP_CONFIG_DIR` | `/etc/mcp/config` |\n\n" ++
  "> **Note:** `spec.config.requestTimeout` and `spec.config.maxConcurrentRequests` are accepted by the CRD schema but are not yet consumed by the operator. They are reserved for a future release.\n"

/-- Static appendix for the MCPTool page (`CONDITION_DOCS.MCPTool`). -/
def mcpToolConditionDoc : String :=
  "\n# Condition reference\n\n" ++
  "| Condition | Reason | Status | Description |\n" ++
  "| --- | --- | --- | --- |\n" ++
  "| `Ready` | `ServiceResolved` | True | Named Service found; `status.resolvedEndpoint` contains the full URL |\n" ++
  "| `Ready` | `ServiceNotFound` | False | Named Service does not exist in the namespace |\n\n" ++
  "See the [Observability guide](/guides/observability/) for diagnostic patterns using these conditions.\n"

/-- Static appendix for the MCPPrompt page (`CONDITION_DOCS.MCPPrompt`). -/
def mcpPromptConditionDoc : String :=
  "\n# Condition reference\n\n" ++
  "| Condition | Reason | Status | Description |\n" ++
  "| --- | --- | --- | --- |\n" ++
  "| `Validated` | `TemplateValid` | True | All `&#123;&#123;variable&#125;&#125;` placeholders are declared in `spec.variables` |\n" ++
  "| `Validated` | `UndeclaredVariables` | False | Template references variables not listed in `spec.variables` |\n" ++
  "| `Validated` | `UnusedVariables` | False | `spec.variables` declares names not referenced in the template |\n\n" ++
  "See the [Observability guide](/guides/observability/) for diagnostic patterns using these conditions.\n"

/-- Static appendix for the MCPResource page (`CONDITION_DOCS.MCPResource`). -/
def mcpResourceConditionDoc : String :=
  "\n# Condition reference\n\n" ++
  "| Condition | Reason | Status | Description |\n" ++
  "| --- | --- | --- | --- |\n" ++
  "| `Ready` | `ContentValid` | True | Inline `spec.content` validated successfully |\n" ++
  "| `Ready` | `OperationsValid` | True | All `spec.operations` validated and service endpoints resolved |\n" ++
  "| `Ready` | `InvalidSpec` | False | Neither `spec.operations` nor `spec.content` is defined |\n" ++
  "| `Ready` | `EmptyContent` | False | `spec.content` has neither `text` nor `blob` |\n" ++
  "| `Ready` | `ServiceNotFound` | False | A Service referenced in `spec.operations` does not exist in the namespace |\n\n" ++
  "See the [Observability guide](/guides/observability/) for diagnostic patterns using these conditions.\n"

/-- The `CONDITION_DOCS` record: static content appended to exactly these
four CRD pages after the auto-generated schema. -/
def CONDITION_DOCS : List (String × String) :=
  [("MCPServer", mcpServerConditionDoc),
   ("MCPTool", mcpToolConditionDoc),
   ("MCPPrompt", mcpPromptConditionDoc),
   ("MCPResource", mcpResourceConditionDoc)]

/-- The fixed sections of one generated page up to and including the schema
section (`sections` in `mdxForCrd` before the optional pushes). -/
def mdxBaseSections (kind group version : String) (schema : SchemaNode) : List String :=
  let title := kind
  let slug := jsToLower kind
  ["---",
   "title: " ++ title,
   "description: Auto-generated CRD schema reference for " ++ kind,
   "---",
   "",
   "> This page is auto-generated by `scripts/generate-schema-docs.ts`. Do not edit manually.",
   "",
   "- **Kind:** `" ++ kind ++ "`",
   "- **API Group:** `" ++ group ++ "`",
   "- **Version:** `" ++ version ++ "`",
   "- **apiVersion:** `" ++ group ++ "/" ++ version ++ "`",
   "- **Reference Slug:** `/reference/" ++ slug ++ "/`",
   "",
   "# Schema",
   "",
   buildSection "#" schema]

/-- The `if (example)` push in `mdxForCrd` (a truthy, i.e. non-empty,
example adds the fenced example block). -/
def exampleSections : Option String → List String
  | some ex => if ex = "" then [] else ["", "# Example", "", "```yaml", ex, "```"]
  | none => []

/-- Property keys every plain JS object literal inherits from
`Object.prototype` (including the Annex B accessor members, which Node
provides). -/
def OBJECT_PROTOTYPE_MEMBERS : List String :=
  ["constructor", "hasOwnProperty", "isPrototypeOf", "propertyIsEnumerable",
   "toLocaleString", "toString", "valueOf", "__defineGetter__",
   "__defineSetter__", "__lookupGetter__", "__lookupSetter__", "__proto__"]

/-- Rendering of an inherited `Object.prototype` member when
`sections.join('\n')` later stringifies it: `__proto__` evaluates to the
`Object.prototype` object itself, `constructor` to the `Object` function,
and the rest to native functions of the same name.  The exact bytes are
implementation-defined (these follow Node's V8); the theorems below depend
only on the rendered text being appended and non-empty, which holds in
every implementation, never on these bytes. -/
def protoMemberRendered : String → String
  | "__proto__" => "[object Object]"
  | "constructor" => "function Object() \x7b [native code] \x7d"
  | name => "function " ++ name ++ "() \x7b [native code] \x7d"

/-- The JS bracket lookup `CONDITION_DOCS[kind]`: an own entry when `kind`
is one of the four keys, otherwise the inherited `Object.prototype` member
of that name (already rendered as the string the later `join` produces),
otherwise `undefined`.  Inherited members are functions or objects, hence
truthy regardless of their rendering. -/
def conditionLookup (kind : String) : Option String :=
  match mapGet kind CONDITION_DOCS with
  | some d => some d
  | none =>
    if OBJECT_PROTOTYPE_MEMBERS.contains kind then some (protoMemberRendered kind)
    else none

/-- The `if (CONDITION_DOCS[kind])` push in `mdxForCrd`. -/
def conditionSections (kind : String) : List String :=
  match conditionLookup kind with
  | some d => if d = "" then [] else [d]
  | none => []

/-- Source `mdxForCrd`: the complete generated page for one resource kind. -/
def mdxForCrd (kind group version : String) (schema : SchemaNode) (exampleText : Option String) : String :=
  joinSep "\n"
    (mdxBaseSections kind group version schema
      ++ exampleSections exampleText
      ++ conditionSections kind)

/-- The `spec.names` object of a parsed CRD document. -/
structure CrdNames where
  kind : Option String

/-- The `versions[i].schema` wrapper of a parsed CRD document. -/
structure CrdVersionSchema where
  openAPIV3Schema : Option SchemaNode

/-- One entry of `spec.versions` of a parsed CRD document. -/
structure CrdVersion where
  name : Option String
  schema : Option CrdVersionSchema

/-- The `spec` object of a parsed CRD document. -/
structure CrdSpec where
  group : Option String
  names : Option CrdNames
  versions : Option (List CrdVersion)

/-- A parsed CRD document (`CrdDoc` in the source). -/
structure CrdDoc where
  spec : Option CrdSpec

/-- `ensureString(parsed.spec?.names?.kind)`. -/
def crdKind (d : CrdDoc) : String :=
  ensureString ((d.spec.bind CrdSpec.names).bind CrdNames.kind)

/-- `ensureString(parsed.spec?.group)`. -/
def crdGroup (d : CrdDoc) : String :=
  ensureString (d.spec.bind CrdSpec.group)

/-- `parsed.spec?.versions?.[0]`. -/
def crdFirstVersion (d : CrdDoc) : Option CrdVersion :=
  (d.spec.bind CrdSpec.versions).bind List.head?

/-- `ensureString(parsed.spec?.versions?.[0]?.name)`. -/
def crdVersionName (d : CrdDoc) : String :=
  ensureString ((crdFirstVersion d).bind CrdVersion.name)

/-- `parsed.spec?.versions?.[0]?.schema?.openAPIV3Schema`. -/
def crdSchema (d : CrdDoc) : Option SchemaNode :=
  ((crdFirstVersion d).bind CrdVersion.schema).bind CrdVersionSchema.openAPIV3Schema

/-- Processing of one parsed CRD document inside `main`'s loop: a document
without a kind is skipped (`.ok none`), a document whose schema root is
missing throws (`.error`), otherwise the output file name (lowercased kind
plus `.mdx`, the constant output directory omitted) and rendered content
are produced. -/
def processDoc (examples : List (String × String)) (filePath : String) (doc : CrdDoc) :
    Except String (Option (String × String)) :=
  let kind := crdKind doc
  if kind = "" then .ok none
  else
    match crdSchema doc with
    | none => .error ("Missing openAPIV3Schema for " ++ kind ++ " in " ++ filePath)
    | some schema =>
      .ok (some (jsToLower kind ++ ".mdx",
        mdxForCrd kind (crdGroup doc) (crdVersionName doc) schema (exampleForKind examples kind)))

/-- The inner document loop of `main` over one file: the first thrown error
aborts the whole run. -/
def runDocs (examples : List (String × String)) (filePath : String) :
    List CrdDoc → Except String (List (String × String))
  | [] => .ok []
  | d :: ds => do
    let r ← processDoc examples filePath d
    let rest ← runDocs examples filePath ds
    pure ((match r with | some out => [out] | none => []) ++ rest)

/-- The outer file loop of `main`: each input file contributes its parsed
documents; the first thrown error aborts the whole run. -/
def runGeneration (examples : List (String × String)) :
    List (String × List CrdDoc) → Except String (List (String × String))
  | [] => .ok []
  | (p, ds) :: fs => do
    let a ← runDocs examples p ds
    let b ← runGeneration examples fs
    pure (a ++ b)

/-- Process completion status: `main().catch(...)` calls `process.exit(1)`
on any thrown error, and the process otherwise completes with status 0. -/
def exitCode : Except String (List (String × String)) → Nat
  | .ok _ => 0
  | .error _ => 1

/-- Per-character escaping table of `escapeCell`, written from the claim's
wording that the three substitutions act independently on each input
character; `escapeCellCharwise` below is the claim-side rendering against
which the source `escapeCell` is compared. -/
def escChar (c : Char) : List Char :=
  if c = '|' then "\\|".data
  else if c = '\x7b' then "&#123;".data
  else if c = '\x7d' then "&#125;".data
  else if c = '\n' then "<br />".data
  else [c]

/-- Claim-side rendering of `escapeCell`: every input character is rewritten
independently, so no substitution can observe another's output. -/
def escapeCellCharwise (s : String) : String :=
  String.mk (s.data.flatMap escChar)

/-- The pipe substitution of `escapeCell` postponed to the very end; used
to express that the pipe escape does not interact with the brace and
newline substitutions. -/
def escapeCellPipeLast (s : String) : String :=
  String.mk
    (replaceChar '|' "\\|".data
      (replaceChar '\n' "<br />".data
        (replaceChar '\x7d' "&#125;".data
          (replaceChar '\x7b' "&#123;".data s.data))))

/-! Helper lemmas. -/

/-- Distribution of single-character replacement over concatenation. -/
theorem replaceChar_append (pat : Char) (rep l₁ l₂ : List Char) :
    replaceChar pat rep (l₁ ++ l₂) = replaceChar pat rep l₁ ++ replaceChar pat rep l₂ := by
  induction l₁ with
  | nil => rfl
  | cons c cs ih => simp [replaceChar, ih]

/-- List-level form of the claim that `escapeCell` acts independently on
each input character. -/
theorem escapeCell_chain_eq_flatMap (l : List Char) :
    replaceChar '\n' "<br />".data
      (replaceChar '\x7d' "&#125;".data
        (replaceChar '\x7b' "&#123;".data
          (replaceChar '|' "\\|".data l))) = l.flatMap escChar := by
  induction l with
  | nil => rfl
  | cons c cs ih =>
    have key : replaceChar '\n' "<br />".data
        (replaceChar '\x7d' "&#125;".data
          (replaceChar '\x7b' "&#123;".data
            (if c = '|' then "\\|".data else [c]))) = escChar c := by
      by_cases h1 : c = '|'
      · subst h1; rfl
      · rw [if_neg h1]
        by_cases h2 : c = '\x7b'
        · subst h2; decide
        · by_cases h3 : c = '\x7d'
          · subst h3; decide
          · by_cases h4 : c = '\n'
            · subst h4; decide
            · simp [replaceChar, escChar, h1, h2, h3, h4]
    calc replaceChar '\n' "<br />".data
          (replaceChar '\x7d' "&#125;".data
            (replaceChar '\x7b' "&#123;".data
              (replaceChar '|' "\\|".data (c :: cs))))
        = replaceChar '\n' "<br />".data
            (replaceChar '\x7d' "&#125;".data
              (replaceChar '\x7b' "&#123;".data
                ((if c = '|' then "\\|".data else [c]) ++ replaceChar '|' "\\|".data cs))) := rfl
      _ = replaceChar '\n' "<br />".data
            (replaceChar '\x7d' "&#125;".data
              (replaceChar '\x7b' "&#123;".data (if c = '|' then "\\|".data else [c])))
          ++ replaceChar '\n' "<br />".data
              (replaceChar '\x7d' "&#125;".data
                (replaceChar '\x7b' "&#123;".data (replaceChar '|' "\\|".data cs))) := by
            rw [replaceChar_append, replaceChar_append, replaceChar_append]
      _ = escChar c ++ cs.flatMap escChar := by rw [key, ih]
      _ = (c :: cs).flatMap escChar := by simp

/-- List-level form of the pipe substitution postponed to the end. -/
theorem escapeCell_pipeLast_chain_eq_flatMap (l : List Char) :
    replaceChar '|' "\\|".data
      (replaceChar '\n' "<br />".data
        (replaceChar '\x7d' "&#125;".data
          (replaceChar '\x7b' "&#123;".data l))) = l.flatMap escChar := by
  induction l with
  | nil => rfl
  | cons c cs ih =>
    have key : replaceChar '|' "\\|".data
        (replaceChar '\n' "<br />".data
          (replaceChar '\x7d' "&#125;".data
            (if c = '\x7b' then "&#123;".data else [c]))) = escChar c := by
      by_cases h2 : c = '\x7b'
      · subst h2; rfl
      · rw [if_neg h2]
        by_cases h3 : c = '\x7d'
        · subst h3; decide
        · by_cases h4 : c = '\n'
          · subst h4; decide
          · by_cases h1 : c = '|'
            · subst h1; decide
            · simp [replaceChar, escChar, h1, h2, h3, h4]
    calc replaceChar '|' "\\|".data
          (replaceChar '\n' "<br />".data
            (replaceChar '\x7d' "&#125;".data
              (replaceChar '\x7b' "&#123;".data (c :: cs))))
        = replaceChar '|' "\\|".data
            (replaceChar '\n' "<br />".data
              (replaceChar '\x7d' "&#125;".data
                ((if c = '\x7b' then "&#123;".data else [c]) ++ replaceChar '\x7b' "&#123;".data cs))) := rfl
      _ = replaceChar '|' "\\|".data
            (replaceChar '\n' "<br />".data
              (replaceChar '\x7d' "&#125;".data (if c = '\x7b' then "&#123;".data else [c])))
          ++ replaceChar '|' "\\|".data
              (replaceChar '\n' "<br />".data
                (replaceChar '\x7d' "&#125;".data (replaceChar '\x7b' "&#123;".data cs))) := by
            rw [replaceChar_append, replaceChar_append, replaceChar_append]
      _ = escChar c ++ cs.flatMap escChar := by rw [key, ih]
      _ = (c :: cs).flatMap escChar := by simp

/-- C4: `escapeCell` applies the pipe escape, the brace replacements and the
newline replacement in that order, and the three transforms do not
interact: the whole function coincides with the per-character rewriting
`escapeCellCharwise` (so no substitution ever observes another's output),
and it also coincides with the variant that performs the pipe escape last
(so in particular no pipe introduced by a brace replacement is ever
re-escaped). -/
theorem c4_escapeCell_independent (s : String) :
    escapeCell s = escapeCellCharwise s ∧ escapeCell s = escapeCellPipeLast s := by
  constructor
  · exact congrArg String.mk (escapeCell_chain_eq_flatMap s.data)
  · exact (congrArg String.mk (escapeCell_chain_eq_flatMap s.data)).trans
      (congrArg String.mk (escapeCell_pipeLast_chain_eq_flatMap s.data)).symm

/-- The elementwise formatter agrees with `List.map formatType`. -/
theorem formatTypeList_eq_map (l : List SchemaNode) :
    formatTypeList l = l.map formatType := by
  induction l with
  | nil => rfl
  | cons x xs ih => simp [formatTypeList, ih]

/-- C1 (amended): the six-branch reference definition of `formatType`, with
branch precedence exactly as claimed; the only amendment is in the last
step, where the `" [format]"` suffix requires `format` to be present and
non-empty (the source tests JS truthiness, so a present but empty `format`
string produces no suffix). -/
theorem c1_formatType_branches (n : SchemaNode) :
    (n.oneOf ≠ [] → formatType n = joinSep " | " (n.oneOf.map formatType))
  ∧ (n.oneOf = [] → n.anyOf ≠ [] → formatType n = joinSep " | " (n.anyOf.map formatType))
  ∧ (n.oneOf = [] → n.anyOf = [] → n.allOf ≠ [] →
      formatType n = joinSep " & " (n.allOf.map formatType))
  ∧ (n.oneOf = [] → n.anyOf = [] → n.allOf = [] → n.type = some "array" →
      formatType n = (match n.items with
        | none => "array"
        | some it => "array<" ++ formatType it ++ ">"))
  ∧ (n.oneOf = [] → n.anyOf = [] → n.allOf = [] → n.type = some "object" →
      formatType n = (match n.additionalProperties with
        | some (.inr m) => "map<string, " ++ formatType m ++ ">"
        | _ => "object"))
  ∧ (n.oneOf = [] → n.anyOf = [] → n.allOf = [] → n.type ≠ some "array" → n.type ≠ some "object" →
      formatType n =
        (n.type.getD "unknown")
          ++ (match n.format with
              | some s => if s = "" then "" else " [" ++ s ++ "]"
              | none => "")
          ++ (if n.enum.isEmpty then ""
              else " (" ++ joinSep ", " (n.enum.map jsonStringify) ++ ")")) := by
  rcases n with ⟨t, d, e, r, p, i, ap, o, a, al, f, df⟩
  simp only [SchemaNode.oneOf, SchemaNode.anyOf, SchemaNode.allOf, SchemaNode.type,
    SchemaNode.items, SchemaNode.additionalProperties, SchemaNode.format, SchemaNode.enum]
  refine ⟨?_, ?_, ?_, ?_, ?_, ?_⟩
  · intro h1
    rw [formatType.eq_def]
    simp [List.isEmpty_eq_false, h1, formatTypeList_eq_map]
  · intro h1 h2
    subst h1
    rw [formatType.eq_def]
    simp [List.isEmpty_eq_false, h2, formatTypeList_eq_map]
  · intro h1 h2 h3
    subst h1; subst h2
    rw [formatType.eq_def]
    simp [List.isEmpty_eq_false, h3, formatTypeList_eq_map]
  · intro h1 h2 h3 h4
    subst h1; subst h2; subst h3; subst h4
    rw [formatType.eq_def]
    simp
  · intro h1 h2 h3 h4
    subst h1; subst h2; subst h3; subst h4
    rw [formatType.eq_def]
    simp
  · intro h1 h2 h3 h4 h5
    subst h1; subst h2; subst h3
    rw [formatType.eq_def]
    simp only [List.isEmpty_eq_false, h4, h5, if_false, List.isEmpty_nil]
    simp [formatTypeList_eq_map]
    cases e <;> simp

/-- Schema leaf of type `string`. -/
def strNode : SchemaNode := .mk (some "string") none [] [] none none none [] [] [] none none

/-- Schema leaf of type `integer`. -/
def intNode : SchemaNode := .mk (some "integer") none [] [] none none none [] [] [] none none

/-- Node whose `format` is present but empty. -/
def c1EmptyFormatNode : SchemaNode :=
  .mk (some "string") none [] [] none none none [] [] [] (some "") none

/-- Node with a two-member `oneOf` and no other fields. -/
def c1OneOfNode : SchemaNode :=
  .mk none none [] [] none none none [strNode, intNode] [] [] none none

/-- C1 (counterexample): for a node whose `format` is present but equal to
the empty string, `formatType` yields no `" [format]"` suffix, while the
claim's step six ("the `" [format]"` suffix when format is present")
predicts the label `"string []"`. -/
theorem c1_counterexample :
    c1EmptyFormatNode.format = some "" ∧ formatType c1EmptyFormatNode = "string"
      ∧ "string" ≠ "string []" :=
  ⟨rfl, rfl, by decide⟩

/-- Witness for the first branch of `c1_formatType_branches` at a concrete
node with a non-empty `oneOf`. -/
theorem c1_formatType_branches_witness :
    c1OneOfNode.oneOf ≠ [] ∧
      formatType c1OneOfNode = joinSep " | " (c1OneOfNode.oneOf.map formatType) := by
  refine ⟨?_, (c1_formatType_branches c1OneOfNode).1 ?_⟩ <;>
    simp [c1OneOfNode, SchemaNode.oneOf]

/-- Items node of the C2 family: an object schema whose `properties` entry
is the parameter (present and empty, present and non-empty, or absent). -/
def c2Items (props : Option (List (String × SchemaNode))) : SchemaNode :=
  .mk (some "object") none [] [] props none none [] [] [] none none

/-- Array child of the C2 family with the given items `properties`. -/
def c2ArrayChild (props : Option (List (String × SchemaNode))) : SchemaNode :=
  .mk (some "array") none [] [] none (some (c2Items props)) none [] [] [] none none

/-- Parent object with a single array field `tags` whose items `properties`
entry is the parameter. -/
def c2Parent (props : Option (List (String × SchemaNode))) : SchemaNode :=
  .mk (some "object") none [] [] (some [("tags", c2ArrayChild props)]) none none [] [] [] none none

/-- Array child whose items node is a plain string schema. -/
def c2StrItemsChild : SchemaNode :=
  .mk (some "array") none [] [] none (some strNode) none [] [] [] none none

/-- Parent object with a single array field `tags` whose items are strings. -/
def c2ParentStrItems : SchemaNode :=
  .mk (some "object") none [] [] (some [("tags", c2StrItemsChild)]) none none [] [] [] none none

/-- C2 (counterexample): an array child whose `items` is an object schema
with a present but empty `properties` map still produces a nested `tags[]`
subsection (holding the placeholder sentence), contradicting the claim
that such a child "is documented only via its table row and produces no
subsection". -/
theorem c2_counterexample :
    buildSection "#" (c2Parent (some []))
      = "## Root\n\n| Field | Type | Required | Description | Default |\n| --- | --- | --- | --- | --- |\n| `tags` | `array<object>` | No | — | — |\n\n## tags[]\n\n_No direct properties at this level._"
  ∧ buildSection "#" (c2Parent (some []))
      ≠ "## Root\n\n| Field | Type | Required | Description | Default |\n| --- | --- | --- | --- | --- |\n| `tags` | `array<object>` | No | — | — |" :=
  ⟨rfl, by decide⟩

/-- C2 (amended): within any parent and at any path, the child loop of
`buildSection` gives each property field exactly the blocks of
`childBlockF`, in order; and a child field is expanded into an array
subsection — at `path.name[]`, with the items node as the subsection root —
exactly when its type is `"array"` and its `items` is an object schema
whose `properties` map is present, whether or not that map is empty: under
that condition the two subsection blocks are contributed, and whenever the
condition fails (non-array type, non-object items, items without a
`properties` key, or no items at all) a child that is not an
object-with-non-empty-properties expansion contributes nothing beyond its
table row. -/
theorem c2_array_expansion :
    (∀ props nodePath, childSectionsF props nodePath
        = props.flatMap (fun nc => childBlockF nc nodePath))
  ∧ (∀ nodePath name child it, child.items = some it →
      child.type = some "array" → it.type = some "object" → it.properties.isSome →
      childBlockF (name, child) nodePath
        = ["", buildSectionF it (childPathFor nodePath name ++ "[]")])
  ∧ (∀ nodePath name child it, child.items = some it →
      ¬(child.type = some "array" ∧ it.type = some "object" ∧ it.properties.isSome) →
      ¬(child.type = some "object" ∧ child.properties.isSome ∧
          ((child.properties).getD []).length > 0) →
      childBlockF (name, child) nodePath = [])
  ∧ (∀ nodePath name child, child.items = none →
      ¬(child.type = some "object" ∧ child.properties.isSome ∧
          ((child.properties).getD []).length > 0) →
      childBlockF (name, child) nodePath = []) := by
  refine ⟨?_, ?_, ?_, ?_⟩
  · intro props
    induction props with
    | nil => intro nodePath; rfl
    | cons nc rest ih => intro nodePath; simp [childSectionsF, ih]
  · intro nodePath name child it h1 h2 h3 h4
    rcases child with ⟨ct, cd, ce, cr, cp, ci, cap, co, ca, cal, cf, cdf⟩
    simp only [SchemaNode.items, SchemaNode.type] at h1 h2
    subst h1; subst h2
    simp only [childBlockF]
    rw [if_neg (by simp [SchemaNode.type])]
    simp only [arrayChildBlocksF]
    rw [if_pos ⟨trivial, h3, h4⟩]
  · intro nodePath name child it h1 hna hno
    rcases child with ⟨ct, cd, ce, cr, cp, ci, cap, co, ca, cal, cf, cdf⟩
    simp only [SchemaNode.items] at h1
    subst h1
    simp only [childBlockF]
    rw [if_neg hno]
    simp only [arrayChildBlocksF]
    rw [if_neg (by simpa [SchemaNode.type] using hna)]
  · intro nodePath name child h1 hno
    rcases child with ⟨ct, cd, ce, cr, cp, ci, cap, co, ca, cal, cf, cdf⟩
    simp only [SchemaNode.items] at h1
    subst h1
    simp only [childBlockF]
    rw [if_neg hno]
    simp only [arrayChildBlocksF]

/-- Non-array child (type `"string"`) whose `items` is nevertheless an
object schema with a non-empty `properties` map. -/
def c2NonArrayChild : SchemaNode :=
  .mk (some "string") none [] [] none (some (c2Items (some [("key", strNode)]))) none [] [] [] none none

/-- Witness for `c2_array_expansion`: at the non-root path `#.foo`, an
array child with object items carrying properties is expanded from the
items node at `#.foo.tags[]`, while a non-array child with the same items
node contributes no subsection. -/
theorem c2_array_expansion_witness :
    (c2ArrayChild (some [("key", strNode)])).items = some (c2Items (some [("key", strNode)]))
  ∧ childBlockF ("tags", c2ArrayChild (some [("key", strNode)])) "#.foo"
      = ["", buildSectionF (c2Items (some [("key", strNode)])) "#.foo.tags[]"]
  ∧ c2NonArrayChild.items = some (c2Items (some [("key", strNode)]))
  ∧ childBlockF ("tags", c2NonArrayChild) "#.foo" = [] :=
  ⟨rfl,
   (c2_array_expansion).2.1 "#.foo" "tags" (c2ArrayChild (some [("key", strNode)]))
     (c2Items (some [("key", strNode)])) rfl rfl rfl rfl,
   rfl,
   (c2_array_expansion).2.2.1 "#.foo" "tags" c2NonArrayChild
     (c2Items (some [("key", strNode)])) rfl (by decide) (by decide)⟩

/-- C8: with zero properties `buildSection` emits the placeholder sentence
and no table header; with at least one property it emits the header, the
separator, and exactly one row per property (`tail` collects the child
subsections that follow the table). -/
theorem c8_placeholder_and_rows (nodePath : String) (node : SchemaNode) :
    (toObjectEntries node = [] →
      buildSection nodePath node
        = joinSep "\n" (["## " ++ headingForPath nodePath]
            ++ descBlocks node.description
            ++ ["", "_No direct properties at this level._"]))
  ∧ (toObjectEntries node ≠ [] →
      ∃ tail,
        buildSection nodePath node
          = joinSep "\n" (["## " ++ headingForPath nodePath]
              ++ descBlocks node.description
              ++ ["", "| Field | Type | Required | Description | Default |",
                  "| --- | --- | --- | --- | --- |"]
              ++ (toObjectEntries node).map (fun nc => rowFor node.required nc.1 nc.2)
              ++ tail)
        ∧ ((toObjectEntries node).map (fun nc => rowFor node.required nc.1 nc.2)).length
            = (toObjectEntries node).length) := by
  rcases node with ⟨t, d, e, r, p, i, ap, o, a, al, f, df⟩
  simp only [toObjectEntries, SchemaNode.properties, SchemaNode.description, SchemaNode.required]
  constructor
  · intro h
    cases p with
    | none =>
      rw [buildSection, buildSectionF.eq_def]
      simp [tableBlocks]
    | some props =>
      simp only [Option.getD] at h
      subst h
      rw [buildSection, buildSectionF.eq_def]
      simp [tableBlocks, childSectionsF]
  · intro h
    cases p with
    | none => simp at h
    | some props =>
      simp only [Option.getD] at h ⊢
      refine ⟨childSectionsF props nodePath, ?_, by simp⟩
      rw [buildSection, buildSectionF.eq_def]
      have hrows : (props.map fun nc => rowFor r nc.1 nc.2).isEmpty = false := by
        cases props with
        | nil => exact absurd rfl h
        | cons x xs => rfl
      simp [tableBlocks, hrows]

/-- Node with properties absent and a description, for the C8 witness. -/
def c8EmptyNode : SchemaNode :=
  .mk (some "object") (some "Demo node.") [] [] (some []) none none [] [] [] none none

/-- Witness for the empty branch of `c8_placeholder_and_rows` at a concrete
node with an empty `properties` map. -/
theorem c8_placeholder_and_rows_witness :
    toObjectEntries c8EmptyNode = [] ∧
      buildSection "#" c8EmptyNode
        = joinSep "\n" (["## " ++ headingForPath "#"] ++ descBlocks c8EmptyNode.description
            ++ ["", "_No direct properties at this level._"]) :=
  ⟨rfl, (c8_placeholder_and_rows "#" c8EmptyNode).1 rfl⟩

/-- Concatenation law for the join model, for non-empty halves. -/
theorem joinSep_append (sep : String) (l₁ l₂ : List String) (h₁ : l₁ ≠ []) (h₂ : l₂ ≠ []) :
    joinSep sep (l₁ ++ l₂) = joinSep sep l₁ ++ sep ++ joinSep sep l₂ := by
  induction l₁ with
  | nil => exact absurd rfl h₁
  | cons x xs ih =>
    cases xs with
    | nil =>
      cases l₂ with
      | nil => exact absurd rfl h₂
      | cons y ys => simp [joinSep]
    | cons z zs =>
      have step := ih (by simp)
      simp only [List.cons_append] at step ⊢
      rw [joinSep, step, joinSep]
      simp [String.append_assoc]

/-- C5: document assembly and the whole generation run are deterministic —
equal inputs produce byte-identical outputs.  In this embedding both
functions are pure, which mirrors the source: neither consults anything
beyond its arguments (no clock, randomness, or mutable state). -/
theorem c5_deterministic :
    (∀ k g v s e k' g' v' s' e', k = k' → g = g' → v = v' → s = s' → e = e' →
       mdxForCrd k g v s e = mdxForCrd k' g' v' s' e')
  ∧ (∀ ex fs ex' fs', ex = ex' → fs = fs' →
       runGeneration ex fs = runGeneration ex' fs') := by
  constructor
  · intro k g v s e k' g' v' s' e' h1 h2 h3 h4 h5
    subst h1; subst h2; subst h3; subst h4; subst h5; rfl
  · intro ex fs ex' fs' h1 h2
    subst h1; subst h2; rfl

/-- Witness for `c5_deterministic` at one concrete input. -/
theorem c5_deterministic_witness :
    mdxForCrd "Demo" "g.example.io" "v1" strNode none
      = mdxForCrd "Demo" "g.example.io" "v1" strNode none :=
  (c5_deterministic).1 "Demo" "g.example.io" "v1" strNode none
    "Demo" "g.example.io" "v1" strNode none rfl rfl rfl rfl rfl

/-- Example document whose serialization carries a trailing newline. -/
def c3Doc : ExampleDoc := ⟨some (.obj [("kind", .str "Demo")]), "kind: Demo\n"⟩

/-- C3 (counterexample): the example text stored for a kind — and hence
embedded in the assembled document — is `doc.toString().trim()`, not the
text as it appears in the example source: for a document whose
serialization ends in a newline the stored text differs from the source
text, so trimming is applied, contrary to the claim. -/
theorem c3_counterexample :
    loadExamplesByKind [c3Doc] = [("demo", "kind: Demo")]
  ∧ c3Doc.text = "kind: Demo\n"
  ∧ ("kind: Demo" : String) ≠ "kind: Demo\n" :=
  ⟨rfl, rfl, by decide⟩

/-- C3 (amended): the assembler embeds the stored example string verbatim
between the yaml fences and applies no further transformation to it; the
stored string itself is the example document's serialization with leading
and trailing whitespace trimmed (every value of the examples map is
`jsTrim` of some input document's text). -/
theorem c3_example_embedding :
    (∀ kind group version schema ex, ex ≠ "" → conditionLookup kind = none →
       mdxForCrd kind group version schema (some ex)
         = mdxForCrd kind group version schema none
             ++ "\n\n# Example\n\n```yaml\n" ++ ex ++ "\n```")
  ∧ (∀ docs k v, mapGet k (loadExamplesByKind docs) = some v →
       ∃ d ∈ docs, v = jsTrim d.text) := by
  constructor
  · intro kind group version schema ex h1 h2
    have hc : conditionSections kind = [] := by simp [conditionSections, h2]
    simp only [mdxForCrd, hc, exampleSections, if_neg h1, List.append_nil]
    rw [joinSep_append "\n" (mdxBaseSections kind group version schema)
      ["", "# Example", "", "```yaml", ex, "```"] (by simp [mdxBaseSections]) (by simp)]
    simp [joinSep, String.append_assoc]
    rfl
  · intro docs k v
    suffices h : ∀ m, mapGet k (docs.foldl addExample m) = some v →
        (∃ p ∈ m, p.2 = v) ∨ ∃ d ∈ docs, v = jsTrim d.text by
      intro hv
      rcases h [] hv with h' | h'
      · simp at h'
      · exact h'
    induction docs with
    | nil =>
      intro m hm
      left
      simp only [List.foldl_nil, mapGet, Option.map_eq_some'] at hm
      obtain ⟨kv, hfind, hv⟩ := hm
      exact ⟨kv, List.mem_of_find?_eq_some hfind, hv⟩
    | cons d ds ih =>
      intro m hm
      simp only [List.foldl_cons] at hm
      rcases ih (addExample m d) hm with h' | h'
      · obtain ⟨p, hp, hv⟩ := h'
        by_cases h1 : docKind d = ""
        · simp [addExample, h1] at hp
          exact Or.inl ⟨p, hp, hv⟩
        · by_cases h2 : (mapGet (jsToLower (docKind d)) m).isSome
          · simp [addExample, h1, h2] at hp
            exact Or.inl ⟨p, hp, hv⟩
          · simp [addExample, h1, h2] at hp
            rcases hp with hp | hp
            · exact Or.inl ⟨p, hp, hv⟩
            · right
              refine ⟨d, by simp, ?_⟩
              rw [← hv, hp]
      · obtain ⟨d', hd', hv⟩ := h'
        exact Or.inr ⟨d', by simp [hd'], hv⟩

/-- Witness for `c3_example_embedding` at a concrete kind with no
condition appendix and a concrete non-empty example. -/
theorem c3_example_embedding_witness :
    ("kind: Demo" : String) ≠ "" ∧
      mdxForCrd "Demo" "g.example.io" "v1" strNode (some "kind: Demo")
        = mdxForCrd "Demo" "g.example.io" "v1" strNode none
            ++ "\n\n# Example\n\n```yaml\n" ++ "kind: Demo" ++ "\n```" :=
  ⟨by decide,
   (c3_example_embedding).1 "Demo" "g.example.io" "v1" strNode "kind: Demo" (by decide) rfl⟩

/-- Every rendered inherited member is a non-empty string (mirroring the
fact that inherited members are truthy in JS). -/
theorem protoMemberRendered_ne_empty (k : String) : protoMemberRendered k ≠ "" := by
  rw [protoMemberRendered.eq_def]
  split
  · decide
  · decide
  · intro h
    have h' := congrArg String.data h
    simp [String.data_append] at h'

/-- Every value produced by the condition lookup is non-empty, so the
truthiness test before the push always passes. -/
theorem conditionLookup_ne_empty (kind c : String)
    (h : conditionLookup kind = some c) : c ≠ "" := by
  simp only [conditionLookup] at h
  cases hm : mapGet kind CONDITION_DOCS with
  | some d =>
    rw [hm] at h
    cases h
    simp only [mapGet, Option.map_eq_some'] at hm
    obtain ⟨kv, hfind, hd⟩ := hm
    have hmem := List.mem_of_find?_eq_some hfind
    subst hd
    simp only [CONDITION_DOCS, List.mem_cons, List.not_mem_nil, or_false] at hmem
    rcases hmem with h | h | h | h <;> rw [h] <;> decide
  | none =>
    rw [hm] at h
    by_cases hc : OBJECT_PROTOTYPE_MEMBERS.contains kind
    · rw [if_pos hc] at h
      cases h
      exact protoMemberRendered_ne_empty kind
    · rw [if_neg hc] at h
      exact absurd h (by simp)

/-- C9 (amended): the object lookup `CONDITION_DOCS[kind]` is truthy for
exactly the four own keys MCPServer, MCPTool, MCPPrompt, MCPResource plus
the kinds naming an inherited member of `Object.prototype`; whenever the
lookup yields a value, the assembled page is the base sections plus
optional example block followed by that value (the fixed appendix for the
four kinds, the stringified inherited member otherwise), and for every
remaining kind nothing follows the example block (or the schema section
when there is no example). -/
theorem c9_condition_appendix (kind group version : String) (schema : SchemaNode)
    (ex : Option String) :
    ((conditionLookup kind).isSome
        ↔ (kind = "MCPServer" ∨ kind = "MCPTool" ∨ kind = "MCPPrompt" ∨ kind = "MCPResource"
            ∨ kind ∈ OBJECT_PROTOTYPE_MEMBERS))
  ∧ (∀ c, conditionLookup kind = some c →
      mdxForCrd kind group version schema ex
        = joinSep "\n" (mdxBaseSections kind group version schema ++ exampleSections ex)
            ++ "\n" ++ c)
  ∧ (conditionLookup kind = none →
      mdxForCrd kind group version schema ex
        = joinSep "\n" (mdxBaseSections kind group version schema ++ exampleSections ex)) := by
  have base_ne : mdxBaseSections kind group version schema ++ exampleSections ex ≠ [] := by
    simp [mdxBaseSections]
  refine ⟨?_, ?_, ?_⟩
  · by_cases h1 : kind = "MCPServer"
    · simp [conditionLookup, mapGet, CONDITION_DOCS, List.find?, h1]
    · by_cases h2 : kind = "MCPTool"
      · simp [conditionLookup, mapGet, CONDITION_DOCS, List.find?, h2]
      · by_cases h3 : kind = "MCPPrompt"
        · simp [conditionLookup, mapGet, CONDITION_DOCS, List.find?, h3]
        · by_cases h4 : kind = "MCPResource"
          · simp [conditionLookup, mapGet, CONDITION_DOCS, List.find?, h4]
          · have hb1 : ("MCPServer" == kind) = false := by simp [Ne.symm h1]
            have hb2 : ("MCPTool" == kind) = false := by simp [Ne.symm h2]
            have hb3 : ("MCPPrompt" == kind) = false := by simp [Ne.symm h3]
            have hb4 : ("MCPResource" == kind) = false := by simp [Ne.symm h4]
            simp only [conditionLookup, mapGet, CONDITION_DOCS, List.find?,
              hb1, hb2, hb3, hb4, Option.map_none]
            by_cases hc : OBJECT_PROTOTYPE_MEMBERS.contains kind
            · have hmem : kind ∈ OBJECT_PROTOTYPE_MEMBERS := by
                simpa using hc
              simp [hc, hmem]
            · have hmem : kind ∉ OBJECT_PROTOTYPE_MEMBERS := by
                simpa using hc
              simp [hc, hmem, h1, h2, h3, h4]
  · intro c hc
    have hne := conditionLookup_ne_empty kind c hc
    have hcs : conditionSections kind = [c] := by
      simp [conditionSections, hc, hne]
    rw [mdxForCrd, hcs,
      joinSep_append "\n" (mdxBaseSections kind group version schema ++ exampleSections ex)
        [c] base_ne (by simp)]
    simp [joinSep]
  · intro hc
    have hcs : conditionSections kind = [] := by simp [conditionSections, hc]
    rw [mdxForCrd, hcs, List.append_nil]

/-- C9 (counterexample): the kind `toString` is none of the four MCP kinds,
yet the object lookup hits the inherited `Object.prototype.toString`
function, the truthiness test passes, and its stringification is appended
after the schema section — so something does follow for a kind outside the
four, contradicting the claim. -/
theorem c9_counterexample :
    ("toString" ≠ "MCPServer" ∧ "toString" ≠ "MCPTool" ∧ "toString" ≠ "MCPPrompt"
        ∧ "toString" ≠ "MCPResource")
  ∧ conditionLookup "toString" = some (protoMemberRendered "toString")
  ∧ mdxForCrd "toString" "g.example.io" "v1" strNode none
      = joinSep "\n" (mdxBaseSections "toString" "g.example.io" "v1" strNode
          ++ exampleSections none) ++ "\n" ++ protoMemberRendered "toString"
  ∧ protoMemberRendered "toString" ≠ "" :=
  ⟨by decide, rfl, rfl, by decide⟩

/-- Witness for `c9_condition_appendix` at the concrete kind MCPTool. -/
theorem c9_condition_appendix_witness :
    conditionLookup "MCPTool" = some mcpToolConditionDoc ∧
      mdxForCrd "MCPTool" "g.example.io" "v1" strNode none
        = joinSep "\n" (mdxBaseSections "MCPTool" "g.example.io" "v1" strNode
            ++ exampleSections none) ++ "\n" ++ mcpToolConditionDoc :=
  ⟨rfl, (c9_condition_appendix "MCPTool" "g.example.io" "v1" strNode none).2.1
    mcpToolConditionDoc rfl⟩

/-- Condition under which one example document is the one that supplies the
examples-map entry at key `k`: its kind tag is non-empty and lowercases to
`k` (claim-side rendering of the loop's guards). -/
def exCond (k : String) (d : ExampleDoc) : Bool :=
  (!(docKind d == "")) && (jsToLower (docKind d) == k)

/-- Lookup in a map extended on the right by one binding. -/
theorem mapGet_append_single (k k' v : String) (m : List (String × String)) :
    mapGet k (m ++ [(k', v)])
      = match mapGet k m with
        | some w => some w
        | none => if k' == k then some v else none := by
  simp only [mapGet, List.find?_append]
  cases h : List.find? (fun kv => kv.1 == k) m with
  | none =>
    by_cases hk : k' == k
    · simp [Option.or, List.find?, hk]
    · simp only [Bool.not_eq_true] at hk
      simp [Option.or, List.find?, hk]
  | some w => simp [Option.or]

/-- First-wins characterization of the examples-map fold: looking up `k`
after folding `docs` over accumulator `m` yields the accumulator's binding
when present, otherwise the trimmed text of the first document of `docs`
satisfying `exCond k`. -/
theorem loadExamples_foldl_get (k : String) :
    ∀ (docs : List ExampleDoc) (m : List (String × String)),
      mapGet k (docs.foldl addExample m)
        = match mapGet k m with
          | some v => some v
          | none => (docs.find? (exCond k)).map (fun d => jsTrim d.text) := by
  intro docs
  induction docs with
  | nil =>
    intro m
    cases h : mapGet k m <;> simp [h]
  | cons d ds ih =>
    intro m
    simp only [List.foldl_cons]
    rw [ih (addExample m d)]
    by_cases h1 : docKind d = ""
    · have hc : exCond k d = false := by simp [exCond, h1]
      have ha : addExample m d = m := by simp [addExample, h1]
      rw [ha]
      simp only [List.find?_cons, hc]
    · by_cases h2 : (mapGet (jsToLower (docKind d)) m).isSome
      · have ha : addExample m d = m := by simp [addExample, h1, h2]
        rw [ha]
        by_cases h3 : jsToLower (docKind d) == k
        · have hkk : jsToLower (docKind d) = k := by simpa using h3
          obtain ⟨w, hw⟩ := Option.isSome_iff_exists.mp h2
          rw [hkk] at hw
          simp [hw, List.find?_cons, exCond]
        · have hc : exCond k d = false := by simp [exCond, h1, h3]
          simp only [List.find?_cons, hc]
      · by_cases h3 : jsToLower (docKind d) == k
        · have hkk : jsToLower (docKind d) = k := by simpa using h3
          have hmk : mapGet k m = none := by
            rw [← hkk]
            simpa using Option.not_isSome_iff_eq_none.mp h2
          have ha : addExample m d = m ++ [(jsToLower (docKind d), jsTrim d.text)] := by
            simp [addExample, h1, h2]
          rw [ha, mapGet_append_single, hmk]
          have hc : exCond k d = true := by simp [exCond, h1, h3, hkk]
          simp [List.find?_cons, hc, hkk]
        · have ha : addExample m d = m ++ [(jsToLower (docKind d), jsTrim d.text)] := by
            simp [addExample, h1, h2]
          have hc : exCond k d = false := by simp [exCond, h1, h3]
          rw [ha, mapGet_append_single]
          simp only [List.find?_cons, hc]
          cases hm : mapGet k m with
          | some w => simp
          | none => simp [h3]

/-- C7: example selection is first-wins — the map entry at key `k` is the
trimmed text of the first document (in source iteration order) whose kind
tag is non-empty and lowercases to `k`, so later duplicates for the same
kind are dropped; and a malformed candidate (one whose parse yields no
object) is discarded while processing continues unchanged. -/
theorem c7_first_example_wins :
    (∀ docs k, mapGet k (loadExamplesByKind docs)
        = (docs.find? (exCond k)).map (fun d => jsTrim d.text))
  ∧ (∀ pre d post, d.parsed = none →
       loadExamplesByKind (pre ++ d :: post) = loadExamplesByKind (pre ++ post)) := by
  constructor
  · intro docs k
    have h := loadExamples_foldl_get k docs []
    simpa [loadExamplesByKind, mapGet] using h
  · intro pre d post h
    have hdk : docKind d = "" := by simp [docKind, h]
    have ha : ∀ m, addExample m d = m := fun m => by simp [addExample, hdk]
    simp [loadExamplesByKind, List.foldl_append, ha]

/-- Malformed example document (its parse throws), for the C7 witness. -/
def c7BadDoc : ExampleDoc := ⟨none, "not yaml"⟩

/-- Duplicate-kind example documents for the C7 witness. -/
def c7DocA : ExampleDoc := ⟨some (.obj [("kind", .str "Demo")]), "first: doc\n"⟩

/-- Second candidate with the same kind tag as `c7DocA`. -/
def c7DocB : ExampleDoc := ⟨some (.obj [("kind", .str "Demo")]), "second: doc\n"⟩

/-- Witness for `c7_first_example_wins`: with two candidates of the same
kind the first one's trimmed text is stored, and dropping a malformed
candidate leaves the result unchanged. -/
theorem c7_first_example_wins_witness :
    mapGet "demo" (loadExamplesByKind [c7DocA, c7DocB])
        = ([c7DocA, c7DocB].find? (exCond "demo")).map (fun d => jsTrim d.text)
  ∧ c7BadDoc.parsed = none
  ∧ loadExamplesByKind ([c7DocA] ++ c7BadDoc :: [c7DocB])
        = loadExamplesByKind ([c7DocA] ++ [c7DocB])
  ∧ mapGet "demo" (loadExamplesByKind [c7DocA, c7DocB]) = some "first: doc" :=
  ⟨(c7_first_example_wins).1 [c7DocA, c7DocB] "demo", rfl,
   (c7_first_example_wins).2 [c7DocA] c7BadDoc [c7DocB] rfl, rfl⟩

/-- C10: example lookup is case-insensitive — two resource kinds that agree
up to letter case receive the same example slot (both sides of the lookup
are lowercased), and a single candidate whose kind tag equals a resource
kind up to case is attached to that kind. -/
theorem c10_case_insensitive :
    (∀ docs k₁ k₂, jsToLower k₁ = jsToLower k₂ →
       exampleForKind (loadExamplesByKind docs) k₁
         = exampleForKind (loadExamplesByKind docs) k₂)
  ∧ (∀ d k, docKind d ≠ "" → jsToLower (docKind d) = jsToLower k →
       exampleForKind (loadExamplesByKind [d]) k = some (jsTrim d.text)) := by
  constructor
  · intro docs k₁ k₂ h
    simp [exampleForKind, h]
  · intro d k h1 h2
    have ha : loadExamplesByKind [d] = [(jsToLower (docKind d), jsTrim d.text)] := by
      simp [loadExamplesByKind, addExample, h1, mapGet]
    simp [exampleForKind, ha, mapGet, List.find?, h2]

/-- Witness for `c10_case_insensitive`: the kinds `DEMO` and `Demo` share
one example slot, and a candidate tagged `Demo` is attached to the resource
kind `DEMO`. -/
theorem c10_case_insensitive_witness :
    jsToLower "DEMO" = jsToLower "Demo"
  ∧ exampleForKind (loadExamplesByKind [c7DocA]) "DEMO"
      = exampleForKind (loadExamplesByKind [c7DocA]) "Demo"
  ∧ docKind c7DocA ≠ ""
  ∧ exampleForKind (loadExamplesByKind [c7DocA]) "DEMO" = some (jsTrim c7DocA.text) :=
  ⟨rfl, (c10_case_insensitive).1 [c7DocA] "DEMO" "Demo" rfl, by decide,
   (c10_case_insensitive).2 c7DocA "DEMO" (by decide) rfl⟩

/-- Extending a successfully processed document list on the right: outputs
accumulate, and any later error still aborts with that error. -/
theorem runDocs_append_ok (examples : List (String × String)) (path : String)
    (l₁ l₂ : List CrdDoc) (o : List (String × String))
    (h : runDocs examples path l₁ = .ok o) :
    runDocs examples path (l₁ ++ l₂)
      = (runDocs examples path l₂).map (fun rest => o ++ rest) := by
  induction l₁ generalizing o with
  | nil =>
    simp only [runDocs] at h
    cases h
    cases h₂ : runDocs examples path l₂ <;> simp [h₂, Except.map]
  | cons d ds ih =>
    simp only [runDocs] at h ⊢
    cases hp : processDoc examples path d with
    | error e => rw [hp] at h; simp [Bind.bind, Except.bind] at h
    | ok r =>
      rw [hp] at h
      simp only [Bind.bind, Except.bind] at h ⊢
      cases hds : runDocs examples path ds with
      | error e => rw [hds] at h; simp at h
      | ok rest =>
        rw [hds] at h
        simp only [pure, Except.pure, Except.ok.injEq] at h
        simp only [List.append_eq]
        rw [ih rest hds]
        cases h₂ : runDocs examples path l₂ with
        | error e => simp [Except.map]
        | ok q => simp [Except.map, pure, Except.pure, ← h, List.append_assoc]

/-- Extending a successfully processed file list on the right: any later
error still aborts with that error. -/
theorem runGeneration_append_ok (examples : List (String × String))
    (fs₁ fs₂ : List (String × List CrdDoc)) (o : List (String × String))
    (h : runGeneration examples fs₁ = .ok o) :
    runGeneration examples (fs₁ ++ fs₂)
      = (runGeneration examples fs₂).map (fun rest => o ++ rest) := by
  induction fs₁ generalizing o with
  | nil =>
    simp only [runGeneration] at h
    cases h
    cases h₂ : runGeneration examples fs₂ <;> simp [h₂, Except.map]
  | cons f fs ih =>
    obtain ⟨p, ds⟩ := f
    simp only [runGeneration] at h ⊢
    cases hp : runDocs examples p ds with
    | error e => rw [hp] at h; simp [Bind.bind, Except.bind] at h
    | ok r =>
      rw [hp] at h
      simp only [Bind.bind, Except.bind] at h ⊢
      cases hds : runGeneration examples fs with
      | error e => rw [hds] at h; simp at h
      | ok rest =>
        rw [hds] at h
        simp only [pure, Except.pure, Except.ok.injEq] at h
        simp only [List.append_eq]
        rw [ih rest hds]
        cases h₂ : runGeneration examples fs₂ with
        | error e => simp [Except.map]
        | ok q => simp [Except.map, pure, Except.pure, ← h, List.append_assoc]

/-- C6: a parsed CRD document with a kind but no locatable schema root
aborts the whole generation run — however many files or documents follow,
the run result is the thrown error (the document is not skipped), the
process completion status is the non-zero 1, and the error message names
the offending resource kind and its source file. -/
theorem c6_missing_schema_aborts (examples : List (String × String))
    (pre suf : List (String × List CrdDoc)) (path : String)
    (preDocs sufDocs : List CrdDoc) (doc : CrdDoc)
    (h1 : crdKind doc ≠ "") (h2 : crdSchema doc = none)
    (h3 : ∃ o, runGeneration examples pre = .ok o)
    (h4 : ∃ o, runDocs examples path preDocs = .ok o) :
    runGeneration examples (pre ++ (path, preDocs ++ doc :: sufDocs) :: suf)
        = .error ("Missing openAPIV3Schema for " ++ crdKind doc ++ " in " ++ path)
  ∧ exitCode (runGeneration examples (pre ++ (path, preDocs ++ doc :: sufDocs) :: suf)) = 1 := by
  obtain ⟨o₁, ho₁⟩ := h3
  obtain ⟨o₂, ho₂⟩ := h4
  have hp : processDoc examples path doc
      = .error ("Missing openAPIV3Schema for " ++ crdKind doc ++ " in " ++ path) := by
    simp [processDoc, h1, h2]
  have hdocs : runDocs examples path (preDocs ++ doc :: sufDocs)
      = .error ("Missing openAPIV3Schema for " ++ crdKind doc ++ " in " ++ path) := by
    rw [runDocs_append_ok examples path preDocs (doc :: sufDocs) o₂ ho₂]
    rw [runDocs, hp]
    simp [Bind.bind, Except.bind, Except.map]
  have hgen : runGeneration examples (pre ++ (path, preDocs ++ doc :: sufDocs) :: suf)
      = .error ("Missing openAPIV3Schema for " ++ crdKind doc ++ " in " ++ path) := by
    rw [runGeneration_append_ok examples pre ((path, preDocs ++ doc :: sufDocs) :: suf) o₁ ho₁]
    rw [runGeneration, hdocs]
    simp [Bind.bind, Except.bind, Except.map]
  exact ⟨hgen, by rw [hgen]; rfl⟩

/-- CRD document with a kind but no schema root, for the C6 witness. -/
def c6BadDoc : CrdDoc :=
  ⟨some ⟨some "g.example.io", some ⟨some "MCPServer"⟩, some [⟨some "v1", none⟩]⟩⟩

/-- Witness for `c6_missing_schema_aborts`: one well-formed earlier file,
a file whose only document lacks a schema root, and one later file; the
run aborts with the descriptive error and exit status 1. -/
theorem c6_missing_schema_aborts_witness :
    crdKind c6BadDoc ≠ ""
  ∧ crdSchema c6BadDoc = none
  ∧ runGeneration [] ([("a-crd.yaml", [])]
        ++ ("crds/mcpserver-crd.yaml", [] ++ c6BadDoc :: []) :: [("z-crd.yaml", [])])
      = .error "Missing openAPIV3Schema for MCPServer in crds/mcpserver-crd.yaml"
  ∧ exitCode (runGeneration [] ([("a-crd.yaml", [])]
        ++ ("crds/mcpserver-crd.yaml", [] ++ c6BadDoc :: []) :: [("z-crd.yaml", [])])) = 1 :=
  ⟨by decide, rfl,
   (c6_missing_schema_aborts [] [("a-crd.yaml", [])] [("z-crd.yaml", [])]
      "crds/mcpserver-crd.yaml" [] [] c6BadDoc (by decide) rfl ⟨[], rfl⟩ ⟨[], rfl⟩).1,
   (c6_missing_schema_aborts [] [("a-crd.yaml", [])] [("z-crd.yaml", [])]
      "crds/mcpserver-crd.yaml" [] [] c6BadDoc (by decide) rfl ⟨[], rfl⟩ ⟨[], rfl⟩).2⟩
